import Mathlib

/-!
Verification development for the hybrid academic-paper search platform
(query service in `src/src`, batch indexer in `src/indexer_go`).

The JavaScript query service and the Go indexer are shallowly embedded:
pure computations become Lean functions, external stores (OpenSearch,
MongoDB, Redis, the embedding service) become explicit oracles or state
that is threaded through the functions, and machine integers become
`Nat`/`Int` with explicit `% 2 ^ 32` where the source overflows.
-/

namespace SEOBackend

/-! ## SHA-256 (as Node crypto sha256 hex digests), executable over byte lists -/

/-- Modulus for 32-bit words. -/
def w32 : Nat := 4294967296

/-- Rotation of a 32-bit word to the right by `n` positions. -/
def rotr32 (n x : Nat) : Nat := ((x >>> n) ||| (x <<< (32 - n))) % w32

/-- Round constants of SHA-256 (FIPS 180-4), written in decimal. -/
def shaK : List Nat :=
  [1116352408, 1899447441, 3049323471, 3921009573, 961987163, 1508970993,
   2453635748, 2870763221, 3624381080, 310598401, 607225278, 1426881987,
   1925078388, 2162078206, 2614888103, 3248222580, 3835390401, 4022224774,
   264347078, 604807628, 770255983, 1249150122, 1555081692, 1996064986,
   2554220882, 2821834349, 2952996808, 3210313671, 3336571891, 3584528711,
   113926993, 338241895, 666307205, 773529912, 1294757372, 1396182291,
   1695183700, 1986661051, 2177026350, 2456956037, 2730485921, 2820302411,
   3259730800, 3345764771, 3516065817, 3600352804, 4094571909, 275423344,
   430227734, 506948616, 659060556, 883997877, 958139571, 1322822218,
   1537002063, 1747873779, 1955562222, 2024104815, 2227730452, 2361852424,
   2428436474, 2756734187, 3204031479, 3329325298]

/-- Big-endian byte decomposition, `n` bytes. -/
def beBytes : Nat → Nat → List Nat
  | 0, _ => []
  | n + 1, v => (v >>> (n * 8)) % 256 :: beBytes n v

/-- Big-endian word assembly from bytes. -/
def bytesToWord (bs : List Nat) : Nat := bs.foldl (fun acc b => acc * 256 + b) 0

/-- Fuel-driven worker for `chunkList`; the fuel is an upper bound on the chunk count. -/
def chunkGo (n : Nat) : Nat → List α → List (List α)
  | 0, _ => []
  | _, [] => []
  | fuel + 1, x :: xs => (x :: List.take (n - 1) xs) :: chunkGo n fuel (List.drop (n - 1) xs)

/-- Splits a list into consecutive chunks of at most `n` elements. -/
def chunkList (n : Nat) (l : List α) : List (List α) := chunkGo n l.length l

/-- Markle-Damgard padding of SHA-256: `0x80`, zeros, 64-bit big-endian bit length. -/
def shaPad (msg : List Nat) : List Nat :=
  let len := msg.length
  let z := (120 - ((len + 1) % 64)) % 64
  msg ++ 0x80 :: List.replicate z 0 ++ beBytes 8 (len * 8)

def smallSigma0 (x : Nat) : Nat := (rotr32 7 x) ^^^ (rotr32 18 x) ^^^ (x >>> 3)

def smallSigma1 (x : Nat) : Nat := (rotr32 17 x) ^^^ (rotr32 19 x) ^^^ (x >>> 10)

def bigSigma0 (x : Nat) : Nat := (rotr32 2 x) ^^^ (rotr32 13 x) ^^^ (rotr32 22 x)

def bigSigma1 (x : Nat) : Nat := (rotr32 6 x) ^^^ (rotr32 11 x) ^^^ (rotr32 25 x)

/-- Message schedule: the 16 block words extended to 64. -/
def schedule64 (w16 : List Nat) : Array Nat :=
  (List.range 48).foldl
    (fun w _ =>
      let i := w.size
      let a := w.getD (i - 16) 0
      let b := w.getD (i - 15) 0
      let c := w.getD (i - 7) 0
      let d := w.getD (i - 2) 0
      w.push ((a + smallSigma0 b + c + smallSigma1 d) % w32))
    w16.toArray

/-- Working state of the SHA-256 compression function. -/
structure Hash8 where
  a : Nat
  b : Nat
  c : Nat
  d : Nat
  e : Nat
  f : Nat
  g : Nat
  h : Nat

/-- One compression of a 16-word block into the running hash. -/
def compressBlock (hs : Hash8) (w16 : List Nat) : Hash8 :=
  let w := schedule64 w16
  let fin := (List.range 64).foldl
    (fun (s : Hash8) (i : Nat) =>
      let ki := shaK.getD i 0
      let wi := w.getD i 0
      let ch := (s.e &&& s.f) ^^^ ((s.e ^^^ (w32 - 1)) &&& s.g)
      let maj := (s.a &&& s.b) ^^^ (s.a &&& s.c) ^^^ (s.b &&& s.c)
      let t1 := (s.h + bigSigma1 s.e + ch + ki + wi) % w32
      let t2 := (bigSigma0 s.a + maj) % w32
      ⟨(t1 + t2) % w32, s.a, s.b, s.c, (s.d + t1) % w32, s.e, s.f, s.g⟩)
    hs
  ⟨(hs.a + fin.a) % w32, (hs.b + fin.b) % w32, (hs.c + fin.c) % w32, (hs.d + fin.d) % w32,
   (hs.e + fin.e) % w32, (hs.f + fin.f) % w32, (hs.g + fin.g) % w32, (hs.h + fin.h) % w32⟩

/-- SHA-256 digest (32 bytes) of a byte list. -/
def sha256Bytes (msg : List Nat) : List Nat :=
  let blocks := (chunkList 64 (shaPad msg)).map (fun b => (chunkList 4 b).map bytesToWord)
  let h0 : Hash8 :=
    ⟨1779033703, 3144134277, 1013904242, 2773480762,
     1359893119, 2600822924, 528734635, 1541459225⟩
  let hf := blocks.foldl compressBlock h0
  beBytes 4 hf.a ++ beBytes 4 hf.b ++ beBytes 4 hf.c ++ beBytes 4 hf.d ++
  beBytes 4 hf.e ++ beBytes 4 hf.f ++ beBytes 4 hf.g ++ beBytes 4 hf.h

/-- Lower-case hex digit. -/
def hexChar (n : Nat) : Char := Char.ofNat (if n < 10 then 48 + n else 87 + n)

/-- Lower-case hex string of a byte list (Node digest hex format). -/
def bytesToHex (bs : List Nat) : String :=
  String.mk (bs.flatMap (fun b => [hexChar (b / 16), hexChar (b % 16)]))

/-- Hex digest of SHA-256, matching the Node crypto hex digest of the UTF-8 bytes. -/
def sha256Hex (msg : List Nat) : String := bytesToHex (sha256Bytes msg)

/-- UTF-8 encoding of one character (Node `update` treats strings as UTF-8). -/
def utf8Bytes (c : Char) : List Nat :=
  let n := c.toNat
  if n < 0x80 then [n]
  else if n < 0x800 then [0xc0 + n / 64, 0x80 + n % 64]
  else if n < 0x10000 then [0xe0 + n / 4096, 0x80 + (n / 64) % 64, 0x80 + n % 64]
  else [0xf0 + n / 262144, 0x80 + (n / 4096) % 64, 0x80 + (n / 64) % 64, 0x80 + n % 64]

/-- UTF-8 bytes of a string. -/
def strUTF8 (s : String) : List Nat := s.data.flatMap utf8Bytes

/-! ## JSON serialization (`JSON.stringify`, no spacing, insertion order) -/

/-- Opening brace as a string. -/
def obL : String := "\x7b"

/-- Closing brace as a string. -/
def obR : String := "\x7d"

/-- JSON string escaping as in ECMA-262 QuoteJSONString. -/
def escChar (c : Char) : List Char :=
  let bs := Char.ofNat 92
  if c = Char.ofNat 34 then [bs, Char.ofNat 34]
  else if c = bs then [bs, bs]
  else if c = Char.ofNat 8 then [bs, Char.ofNat 98]
  else if c = Char.ofNat 9 then [bs, Char.ofNat 116]
  else if c = Char.ofNat 10 then [bs, Char.ofNat 110]
  else if c = Char.ofNat 12 then [bs, Char.ofNat 102]
  else if c = Char.ofNat 13 then [bs, Char.ofNat 114]
  else if c.toNat < 32 then
    [bs, Char.ofNat 117, Char.ofNat 48, Char.ofNat 48, hexChar (c.toNat / 16), hexChar (c.toNat % 16)]
  else [c]

/-- Quoted, escaped JSON string literal. -/
def quoteStr (s : String) : String :=
  String.mk (Char.ofNat 34 :: s.data.flatMap escChar ++ [Char.ofNat 34])

/-- Comma-joined concatenation of serialized parts. -/
def joinComma : List String → String
  | [] => ""
  | [s] => s
  | s :: ss => s ++ "," ++ joinComma ss

/-- JSON array of strings, as `JSON.stringify` prints it. -/
def stringifyStrArr (xs : List String) : String := "[" ++ joinComma (xs.map quoteStr) ++ "]"

/-! ## Result-cache key (`SearchService._getCacheKey`) -/

/-- Possible values of one entry of the `filters` request object. -/
inductive FilterVal where
  | fUndefined
  | fNull
  | fStr (s : String)
  | fNum (n : Int)
  | fBool (b : Bool)
  | fArr (xs : List String)
  deriving Repr, DecidableEq

/-- Whether `_getCacheKey` drops the entry: the value is strictly undefined, null or the empty string. -/
def filterValDropped : FilterVal → Bool
  | .fUndefined => true
  | .fNull => true
  | .fStr s => s = ""
  | _ => false

/-- Serialization of one retained filter value, as `JSON.stringify` prints it. -/
def stringifyFilterVal : FilterVal → String
  | .fUndefined => "null"
  | .fNull => "null"
  | .fStr s => quoteStr s
  | .fNum n => toString n
  | .fBool b => if b then "true" else "false"
  | .fArr xs => stringifyStrArr xs

/-- Filters object: ordered key/value pairs, as a JS object preserves insertion order. -/
def Filters := List (String × FilterVal)

/-- Serialization of a filters object in insertion order. -/
def stringifyFilters (fs : List (String × FilterVal)) : String :=
  obL ++ joinComma (fs.map (fun kv => quoteStr kv.1 ++ ":" ++ stringifyFilterVal kv.2)) ++ obR

/-- Payload string `JSON.stringify({query, filters: normalizedFilters, sort, page, perPage,
searchIn})` with falsy `searchIn` replaced by the string default from `_getCacheKey`. The six fields appear in the literal
order of the source; `JSON.stringify` emits object keys in insertion order (it does not
sort them). -/
def cacheKeyPayload (query : String) (filters : Option Filters) (sort : String)
    (page perPage : Int) (searchIn : Option (List String)) : String :=
  let normalizedFilters := (filters.getD []).filter (fun kv => !(filterValDropped kv.2))
  obL ++ "\"query\":" ++ quoteStr query ++
  ",\"filters\":" ++ stringifyFilters normalizedFilters ++
  ",\"sort\":" ++ quoteStr sort ++
  ",\"page\":" ++ toString page ++
  ",\"perPage\":" ++ toString perPage ++
  ",\"searchIn\":" ++
    (match searchIn with
      | none => quoteStr "default"
      | some l => stringifyStrArr l) ++ obR

/-- Result-cache key: `search:` plus the first 16 hex characters of the SHA-256 of the payload. -/
def getCacheKey (query : String) (filters : Option Filters) (sort : String)
    (page perPage : Int) (searchIn : Option (List String)) : String :=
  let digest := sha256Hex (strUTF8 (cacheKeyPayload query filters sort page perPage searchIn))
  "search:" ++ String.mk (digest.data.take 16)

/-! ## Search request model (`SearchService` in `src/src/schemas/search.js`, second file)

A JS `filters` object is an ordered association list (`Filters`); property access
returns `fUndefined` when the key is absent, matching `filters?.key`. -/

/-- Property lookup on a filters object (`filters?.key`); absent keys read as undefined. -/
def fget (fs : Filters) (k : String) : FilterVal :=
  match (List.find? (fun kv => kv.1 == k) fs) with
  | some kv => kv.2
  | none => .fUndefined

/-- Lookup through an optional filters object (`filters?.key` with `filters` possibly undefined). -/
def fgetOpt (fo : Option Filters) (k : String) : FilterVal :=
  match fo with
  | none => .fUndefined
  | some fs => fget fs k

/-- JS truthiness of a filter value (`if (v)`): undefined, null, `0`, `""`, `false` are falsy;
arrays are always truthy. -/
def fvTruthy : FilterVal → Bool
  | .fUndefined => false
  | .fNull => false
  | .fStr s => s ≠ ""
  | .fNum n => n ≠ 0
  | .fBool b => b
  | .fArr _ => true

/-- JS truthiness of `v?.length` for the array-valued filters. -/
def fvLenTruthy : FilterVal → Bool
  | .fArr xs => xs ≠ []
  | .fStr s => s ≠ ""
  | _ => false

/-- Filter clauses emitted by `SearchService._buildFilters`, in emission order. -/
inductive OSFilter where
  | rangeYear (gte lte : Option FilterVal)
  | termFieldAssociatedKeyword (v : FilterVal)
  | termDocumentType (v : FilterVal)
  | termsDocumentType (v : FilterVal)
  | termsSubjectAreaKeyword (v : FilterVal)
  | nestedAuthorId (v : FilterVal)
  | nestedAffiliationMatch (v : FilterVal)
  | nestedFirstAuthorPosition1
  | rangeSubjectAreaCountGte3
  | termMongoId (v : String)
  deriving Repr, DecidableEq

/-- Translation of `SearchService._buildFilters`, preserving clause order and the
truthiness conditions of the source. -/
def buildFilters (fo : Option Filters) : List OSFilter :=
  (if fvTruthy (fgetOpt fo "year_from") || fvTruthy (fgetOpt fo "year_to") then
    [.rangeYear
      (if fvTruthy (fgetOpt fo "year_from") then some (fgetOpt fo "year_from") else none)
      (if fvTruthy (fgetOpt fo "year_to") then some (fgetOpt fo "year_to") else none)]
  else []) ++
  (if fvTruthy (fgetOpt fo "field_associated") then
    [.termFieldAssociatedKeyword (fgetOpt fo "field_associated")] else []) ++
  (if fvTruthy (fgetOpt fo "document_type") then
    [.termDocumentType (fgetOpt fo "document_type")] else []) ++
  (if fvLenTruthy (fgetOpt fo "document_types") then
    [.termsDocumentType (fgetOpt fo "document_types")] else []) ++
  (if fvLenTruthy (fgetOpt fo "subject_area") then
    [.termsSubjectAreaKeyword (fgetOpt fo "subject_area")] else []) ++
  (if fvTruthy (fgetOpt fo "author_id") then
    [.nestedAuthorId (fgetOpt fo "author_id")] else []) ++
  (if fvTruthy (fgetOpt fo "affiliation") then
    [.nestedAffiliationMatch (fgetOpt fo "affiliation")] else []) ++
  (if fgetOpt fo "first_author_only" = .fBool true then
    [.nestedFirstAuthorPosition1] else []) ++
  (if fgetOpt fo "interdisciplinary" = .fBool true then
    [.rangeSubjectAreaCountGte3] else [])

/-- Weighted search fields of `SearchService._getSearchFields`: pairs of the concrete
engine field and its boost. -/
def defaultSearchFields : List (String × ℚ) :=
  [("title", 4), ("title.exact", 5), ("abstract", 3/2),
   ("subject_area", 3), ("subject_area.ngram", 2),
   ("author_names", 2), ("author_names.ngram", 3/2),
   ("field_associated", 5/2), ("field_associated.ngram", 3/2)]

/-- Field-specific boost table of `_getSearchFields` (base boosts multiplied by 1.5
for the focused field). -/
def fieldMapping (f : String) : List (String × ℚ) :=
  if f = "title" then [("title", 4), ("title.exact", 5)]
  else if f = "abstract" then [("abstract", 3/2 * (3/2))]
  else if f = "author" then
    [("author_names", 2 * (3/2)), ("author_names.ngram", 3/2),
     ("author_name_variants", 5/2), ("author_name_variants.ngram", 3/2)]
  else if f = "subject_area" then
    [("subject_area", 3 * (3/2)), ("subject_area.ngram", 2)]
  else if f = "field" then
    [("field_associated", 5/2 * (3/2)), ("field_associated.ngram", 3/2)]
  else []

/-- Translation of `SearchService._getSearchFields`. -/
def getSearchFields (searchIn : Option (List String)) : List (String × ℚ) :=
  match searchIn with
  | none => defaultSearchFields
  | some l => if l.isEmpty then defaultSearchFields else l.flatMap fieldMapping

/-- Whitespace split of the trimmed query (`query.trim().split(/\s+/)`), as the list of
maximal nonspace runs. -/
def wordsOf (q : String) : List String :=
  ((q.data.foldr
    (fun c (acc : List (List Char)) =>
      if c.isWhitespace then [] :: acc
      else match acc with
        | [] => [[c]]
        | w :: ws => (c :: w) :: ws)
    []).filter (fun w => w ≠ [])).map String.mk

/-- Should-clauses of the engine queries, in emission order. -/
inductive OSClause where
  | multiMatchBest (query : String) (fields : List (String × ℚ)) (tieBreaker : ℚ)
      (fuzzinessAuto : Bool)
  | multiMatchPhrase (query : String) (fields : List (String × ℚ)) (slop : Nat) (boost : ℚ)
  | matchSubjectArea (query : String) (boost : ℚ)
  | matchFieldAssociated (query : String) (boost : ℚ)
  | knnEmbedding (vector : List ℚ) (k : Nat)
  deriving Repr, DecidableEq

/-- Boolean query container (`bool` with `must`, `should`, `must_not`, `filter`). -/
structure BoolQ where
  must : List OSClause := []
  should : List OSClause := []
  mustNot : List OSFilter := []
  filter : List OSFilter := []
  minimumShouldMatch : Option Nat := none
  deriving Repr, DecidableEq

/-- Query body: plain bool, the impact `function_score`, the normalized `script_score`,
or the simple BM25 pre-check `multi_match`. -/
inductive OSQueryBody where
  | boolQ (b : BoolQ)
  | functionScore (inner : BoolQ) (citationFactor citationWeight : ℚ)
      (gaussOrigin : Int) (gaussScale : Nat) (gaussDecay gaussWeight : ℚ)
  | scriptScore (inner : BoolQ) (queryVector : List ℚ) (bm25Weight vectorWeight : ℚ)
  | multiMatchSimple (query : String) (fields : List String)
  deriving Repr, DecidableEq

/-- Sort entry of the engine query. -/
inductive OSSort where
  | score
  | fieldDesc (name : String)
  deriving Repr, DecidableEq

/-- Top-level engine query as assembled by the builders. -/
structure OSQuery where
  size : Int
  fromOff : Int := 0
  trackTotalHits : Bool := false
  minScore : Option ℚ := none
  sourceFields : List String := []
  body : OSQueryBody
  sortClause : List OSSort := []
  hasStandardAggs : Bool := false
  deriving Repr, DecidableEq

/-- Minimum-score defaults of `searchConfig.minScore`. -/
def minScoreHybrid : ℚ := 5

/-- Impact-mode minimum-score default. -/
def minScoreImpact : ℚ := 5

/-- Normalized-mode minimum-score default (0 to 1 scale). -/
def minScoreNormalized : ℚ := 3/10

/-- Phrase boost of `searchConfig.phraseBoost`. -/
def phraseBoost : ℚ := 5/2

/-- Translation of `SearchService._buildHybridQuery` (sorts relevance, date, citations). -/
def buildHybridQuery (query : String) (embedding : List ℚ) (filters : Option Filters)
    (page perPage : Int) (sort : String) (searchIn : Option (List String)) : OSQuery :=
  let fromOff := (page - 1) * perPage
  let filterClauses := buildFilters filters
  let searchFields := getSearchFields searchIn
  let isMultiWord := 2 ≤ (wordsOf query).length
  let shouldClauses :=
    [OSClause.multiMatchBest query searchFields (3/10) true] ++
    (if isMultiWord then
      [OSClause.multiMatchPhrase query [("title", 5), ("abstract", 2)] 2 phraseBoost] else []) ++
    [OSClause.matchSubjectArea query 2,
     OSClause.matchFieldAssociated query (3/2),
     OSClause.knnEmbedding embedding 100]
  let sortClause :=
    if sort = "date" then [OSSort.fieldDesc "publication_year", OSSort.score]
    else if sort = "citations" then [OSSort.fieldDesc "citation_count", OSSort.score]
    else [OSSort.score]
  { size := perPage, fromOff := fromOff, trackTotalHits := true,
    minScore := some minScoreHybrid, sourceFields := ["mongo_id"],
    body := .boolQ { should := shouldClauses, minimumShouldMatch := some 1,
                     filter := filterClauses },
    sortClause := sortClause, hasStandardAggs := true }

/-- Translation of `SearchService._buildImpactQuery` (sort impact); the current year is
taken from the clock, so it is a parameter here. -/
def buildImpactQuery (query : String) (filters : Option Filters)
    (page perPage : Int) (searchIn : Option (List String)) (currentYear : Int) : OSQuery :=
  let fromOff := (page - 1) * perPage
  let filterClauses := buildFilters filters
  let searchFields := getSearchFields searchIn
  let isMultiWord := 2 ≤ (wordsOf query).length
  let shouldClauses :=
    [OSClause.multiMatchBest query searchFields (3/10) true,
     OSClause.matchSubjectArea query 2] ++
    (if isMultiWord then
      [OSClause.multiMatchPhrase query [("title", 5), ("abstract", 2)] 2 phraseBoost] else [])
  { size := perPage, fromOff := fromOff, trackTotalHits := true,
    minScore := some minScoreImpact, sourceFields := ["mongo_id"],
    body := .functionScore
      { must := [OSClause.multiMatchBest query searchFields (3/10) false],
        should := shouldClauses, filter := filterClauses }
      (3/10) (6/5) currentYear 5 (1/2) (4/5),
    hasStandardAggs := true }

/-- Translation of `SearchService._buildNormalizedHybridQuery` (sort normalized):
`script_score` over the BM25 bool with weights bm25 0.4 and vector 0.6, and the
builder `min_score` value 0.3 on the normalized scale. -/
def buildNormalizedHybridQuery (query : String) (embedding : List ℚ) (filters : Option Filters)
    (page perPage : Int) (searchIn : Option (List String)) : OSQuery :=
  let fromOff := (page - 1) * perPage
  let filterClauses := buildFilters filters
  let searchFields := getSearchFields searchIn
  let isMultiWord := 2 ≤ (wordsOf query).length
  let bm25Clauses :=
    [OSClause.multiMatchBest query searchFields (3/10) false,
     OSClause.matchSubjectArea query 2] ++
    (if isMultiWord then
      [OSClause.multiMatchPhrase query [("title", 5), ("abstract", 2)] 2 phraseBoost] else [])
  { size := perPage, fromOff := fromOff, trackTotalHits := true,
    minScore := some minScoreNormalized, sourceFields := ["mongo_id"],
    body := .scriptScore
      { should := bm25Clauses, filter := filterClauses, minimumShouldMatch := some 1 }
      embedding (2/5) (3/5),
    hasStandardAggs := true }

/-! ## Search orchestration (`SearchService.search`) -/

/-- Hydrated authoritative record; only the identifier is structurally relevant. -/
structure MongoDoc where
  mid : String
  deriving Repr, DecidableEq

/-- Engine hit: authoritative id from `_source.mongo_id` plus the hit score. -/
structure OSHit where
  mongoId : String
  score : ℚ
  deriving Repr, DecidableEq

/-- Facet lists as parsed from the aggregation buckets. -/
structure Facets where
  years : List (String × Nat) := []
  yearRanges : List (String × Nat) := []
  documentTypes : List (String × Nat) := []
  fields : List (String × Nat) := []
  subjectAreas : List (String × Nat) := []
  deriving Repr, DecidableEq

/-- Engine search response: ordered hits, total hit count, optional aggregations. -/
structure OSSearchResp where
  hits : List OSHit := []
  total : Nat := 0
  aggs : Option Facets := none
  deriving Repr, DecidableEq

/-- Translation of `SearchService._parseFacets` (`aggregations?.x?.buckets || []`). -/
def parseFacets : Option Facets → Facets
  | none => {}
  | some f => f

/-- Lookup in a JS `Map` built from a pair list: the last binding of a key wins. -/
def jsMapGet (pairs : List (String × α)) (k : String) : Option α :=
  (pairs.reverse.find? (fun p => p.1 == k)).map (fun p => p.2)

/-- Translation of `SearchService._hydrateFromMongoDB`: batch-fetch the ids, build a map,
re-emit in the engine order, drop ids that failed to hydrate. -/
def hydrateFromMongoDB (mongoFind : List String → List MongoDoc)
    (osHits : List OSHit) : List MongoDoc :=
  if osHits.isEmpty then []
  else
    let mongoIds := osHits.map (fun h => h.mongoId)
    let docs := mongoFind mongoIds
    let docMap := docs.map (fun d => (d.mid, d))
    mongoIds.filterMap (fun id => jsMapGet docMap id)

/-- Pagination block of the response. -/
structure Pagination where
  page : Int
  perPage : Int
  total : Nat
  totalPages : Int
  deriving Repr, DecidableEq

/-- Search response as returned by `SearchService.search`. `facets := none` models the
bare object of the zero-match short circuit; a stored cache value carries
`cacheHit := false` because the flag is added only on the return path. -/
structure SearchResponse where
  results : List MongoDoc
  relatedFaculty : Option (List String) := none
  facets : Option Facets := none
  pagination : Pagination
  message : Option String := none
  cacheHit : Bool := false
  deriving Repr, DecidableEq

/-- Search arguments with the destructuring defaults of `search({...})`. -/
structure SearchArgs where
  query : String
  filters : Option Filters := none
  sort : String := "relevance"
  page : Int := 1
  perPage : Int := 20
  searchIn : Option (List String) := none

/-- Environment of one search call: the Redis store and the external oracles
(embedding service, engine, MongoDB, faculty enrichment, clock). -/
structure SearchEnv where
  redis : List (String × SearchResponse) := []
  embedQuery : String → List ℚ
  engine : OSQuery → OSSearchResp
  mongoFind : List String → List MongoDoc
  relatedFaculty : List MongoDoc → List String
  currentYear : Int

/-- Redis `get`: the most recent `setex` binding of a key. -/
def redisGet (st : List (String × SearchResponse)) (k : String) : Option SearchResponse :=
  (st.find? (fun p => p.1 == k)).map (fun p => p.2)

/-- BM25-only pre-check query of `search` (`size: 0`, plain `multi_match`). -/
def bm25PreCheckQuery (query : String) : OSQuery :=
  { size := 0, body := .multiMatchSimple query ["title", "abstract", "author_names", "subject_area"] }

/-- Engine query actually executed by `search`: the sort-selected builder output with
`min_score` overridden to the dynamic value 1.0. -/
def searchExecutedQuery (env : SearchEnv) (a : SearchArgs) : OSQuery :=
  let embedding := env.embedQuery a.query
  let osQuery :=
    if a.sort = "impact" then
      buildImpactQuery a.query a.filters a.page a.perPage a.searchIn env.currentYear
    else if a.sort = "normalized" then
      buildNormalizedHybridQuery a.query embedding a.filters a.page a.perPage a.searchIn
    else
      buildHybridQuery a.query embedding a.filters a.page a.perPage a.sort a.searchIn
  { osQuery with minScore := some 1 }

/-- Ceiling division used for `Math.ceil(total / per_page)` on nonnegative operands. -/
def ceilTotalPages (total : Nat) (perPage : Int) : Int :=
  if perPage ≤ 0 then 0 else ((total : Int) + perPage - 1) / perPage

/-- Translation of `SearchService.search` (the active variant in
`src/src/schemas/search.js`). The hard-coded `bypassCache = true` of the source is kept:
the cached branch is dead code. Returns the response and the updated environment. -/
def search (env : SearchEnv) (a : SearchArgs) : SearchResponse × SearchEnv :=
  let cacheKey := getCacheKey a.query a.filters a.sort a.page a.perPage a.searchIn
  let bypassCache := true
  match if bypassCache then none else redisGet env.redis cacheKey with
  | some cached => ({ cached with cacheHit := true }, env)
  | none =>
    let bm25Matches := (env.engine (bm25PreCheckQuery a.query)).total
    if bm25Matches = 0 then
      ({ results := [],
         pagination := { page := a.page, perPage := a.perPage, total := 0, totalPages := 0 },
         message := some "No relevant results found for your query",
         cacheHit := false }, env)
    else
      let osQuery := searchExecutedQuery env a
      let resp := env.engine osQuery
      let results := hydrateFromMongoDB env.mongoFind resp.hits
      let relatedFaculty := env.relatedFaculty results
      let response : SearchResponse :=
        { results := results,
          relatedFaculty := some relatedFaculty,
          facets := some (parseFacets resp.aggs),
          pagination := { page := a.page, perPage := a.perPage, total := resp.total,
                          totalPages := ceilTotalPages resp.total a.perPage } }
      ({ response with cacheHit := false },
       { env with redis := (cacheKey, response) :: env.redis })

/-! ## Similar documents (`SearchService.findSimilar`) -/

/-- Source fields fetched for the similar-documents source document. -/
structure SourceDoc where
  embedding : List ℚ
  title : String
  subjectArea : List String
  deriving Repr, DecidableEq

/-- One entry of the `similar` array: the hydrated record plus its engine score. -/
structure SimilarEntry where
  doc : MongoDoc
  similarityScore : Option ℚ
  deriving Repr, DecidableEq

/-- Result of `findSimilar`. -/
structure SimilarResult where
  sourceId : String
  sourceTitle : String
  sourceSubjectAreas : List String
  similar : List SimilarEntry
  deriving Repr, DecidableEq

/-- Environment of `findSimilar`: the source-vector lookup (term query on `mongo_id`,
`none` models an empty hit list), the engine and the MongoDB batch fetch. -/
structure SimilarEnv where
  sourceLookup : String → Option SourceDoc
  engine : OSQuery → OSSearchResp
  mongoFind : List String → List MongoDoc

/-- The k-NN query body built by `findSimilar`: `size: limit`, `knn` with `k = limit + 5`
in `must`, and a `must_not` term on the source `mongo_id`. -/
def findSimilarQuery (documentId : String) (lim : Int) (source : SourceDoc) : OSQuery :=
  { size := lim, sourceFields := ["mongo_id"],
    body := .boolQ
      { must := [OSClause.knnEmbedding source.embedding (lim + 5).toNat],
        mustNot := [OSFilter.termMongoId documentId] } }

/-- Translation of `SearchService.findSimilar`: fetch the source vector, run the k-NN
query excluding the source, hydrate in order, and attach each hit score. -/
def findSimilar (env : SimilarEnv) (documentId : String) (lim : Int) :
    Except String SimilarResult :=
  match env.sourceLookup documentId with
  | none => .error "Document not found in search index"
  | some source =>
    let hits := (env.engine (findSimilarQuery documentId lim source)).hits
    let results := hydrateFromMongoDB env.mongoFind hits
    let scoreMap := hits.map (fun h => (h.mongoId, h.score))
    .ok { sourceId := documentId, sourceTitle := source.title,
          sourceSubjectAreas := source.subjectArea,
          similar := results.map (fun r =>
            { doc := r, similarityScore := jsMapGet scoreMap r.mid }) }

/-! ## Document lookup (`SearchService.getDocument` and the document controller) -/

/-- Hexadecimal digit test of the character class `[0-9a-fA-F]`. -/
def isHexDigitChar (c : Char) : Bool :=
  (48 ≤ c.toNat && c.toNat ≤ 57) || (97 ≤ c.toNat && c.toNat ≤ 102) ||
  (65 ≤ c.toNat && c.toNat ≤ 70)

/-- Full match of the regex `^[0-9a-fA-F]\x7b24\x7d$`. -/
def isHex24 (id : String) : Bool :=
  id.data.length = 24 && id.data.all isHexDigitChar

/-- Translation of `SearchService.getDocument`: `findById` only for 24-hex ids, then the
`open_search_id` fallback whenever the first lookup was skipped or found nothing. -/
def getDocument (findById : String → Option MongoDoc)
    (findByOpenSearchId : String → Option MongoDoc) (id : String) : Option MongoDoc :=
  let doc := if isHex24 id then findById id else none
  match doc with
  | some d => some d
  | none => findByOpenSearchId id

/-- Translation of the `getDocument` controller: 404 exactly when the service returns
nothing, 200 with the document otherwise. -/
def getDocumentRoute (findById : String → Option MongoDoc)
    (findByOpenSearchId : String → Option MongoDoc) (id : String) : Nat × Option MongoDoc :=
  match getDocument findById findByOpenSearchId id with
  | some d => (200, some d)
  | none => (404, none)

/-! ## Engine scoring model

Modelled from the spec: the engine itself is an external collaborator (spec section 1);
sections 4.5 and the glossary specify that `min_score` gates hits by score, that
`script_score` computes `w_bm25 * (_score / (1 + _score)) + w_vec * ((cosine + 1) / 2)`,
that hits are ranked by score, and `from`/`size` paginate. A candidate document exposes
its raw BM25 score and its cosine similarity against the query vector. -/

/-- Candidate document of the modelled engine: raw lexical score and cosine similarity. -/
structure EngineDoc where
  mongoId : String
  bm25 : ℚ
  cos : ℚ
  deriving Repr, DecidableEq

/-- Modelled from the spec: the score the engine assigns a candidate under a query body.
The normalized `script_score` formula is the one embedded in the source script; other
bodies score by the raw lexical score. -/
def engineScore (body : OSQueryBody) (d : EngineDoc) : ℚ :=
  match body with
  | .scriptScore _ _ w1 w2 => w1 * (d.bm25 / (1 + d.bm25)) + w2 * ((d.cos + 1) / 2)
  | _ => d.bm25

/-- Stable insertion into a list sorted by descending score. -/
def insertByScoreDesc (h : OSHit) : List OSHit → List OSHit
  | [] => [h]
  | x :: xs => if x.score ≤ h.score then h :: x :: xs else x :: insertByScoreDesc h xs

/-- Modelled from the spec: one engine execution over a fixed candidate list — score,
gate by `min_score` (hits strictly below are dropped), rank by descending score,
paginate by `from`/`size`. The BM25 pre-check body returns only a total. -/
def osEngineRun (index : List EngineDoc) (q : OSQuery) : OSSearchResp :=
  match q.body with
  | .multiMatchSimple _ _ => { hits := [], total := index.length }
  | _ =>
    let scored := index.map (fun d => ({ mongoId := d.mongoId, score := engineScore q.body d } : OSHit))
    let kept := match q.minScore with
      | none => scored
      | some m => scored.filter (fun h => m ≤ h.score)
    let ranked := kept.foldr insertByScoreDesc []
    { hits := (ranked.drop q.fromOff.toNat).take q.size.toNat, total := kept.length,
      aggs := some {} }

/-! ## Go indexer: data model (`internal/mongodb`, `internal/cache`, `internal/opensearch`) -/

/-- Author of an authoritative MongoDB document, as streamed by the Go indexer. -/
structure GoAuthor where
  authorId : String
  authorPosition : String
  authorName : String
  authorEmail : String
  authorAvailableNames : List String
  authorAffiliation : String
  matchedProfile : Option String := none
  deriving Repr, DecidableEq

/-- Authoritative document streamed from MongoDB (`mongodb.Document`); the object id is
kept as its hex string. -/
structure GoDoc where
  id : String
  documentEID : String := ""
  title : String := ""
  abstract : String := ""
  authors : List GoAuthor := []
  publicationYear : Int := 0
  fieldAssociated : String := ""
  documentType : String := ""
  subjectArea : List String := []
  citationCount : Int := 0
  referenceCount : Int := 0
  deriving Repr, DecidableEq

/-- Cached author (`cache.CachedAuthor`). -/
structure CachedAuthor where
  authorId : String
  authorPosition : String
  authorName : String
  authorEmail : String
  authorAvailableNames : List String
  authorAffiliation : String
  hasMatchedProfile : Bool
  deriving Repr, DecidableEq

/-- Cache entry (`cache.CacheEntry`): the fetched projection plus its embedding. -/
structure CacheEntry where
  mongoId : String
  documentEID : String := ""
  title : String := ""
  abstract : String := ""
  authors : List CachedAuthor := []
  publicationYear : Int := 0
  fieldAssociated : String := ""
  documentType : String := ""
  subjectArea : List String := []
  citationCount : Int := 0
  referenceCount : Int := 0
  embedding : List ℚ := []
  deriving Repr, DecidableEq

/-- SPECTER2 embedding text (`embedding.BuildEmbeddingText`). -/
def buildEmbeddingText (title abstract : String) : String :=
  if abstract = "" then title else title ++ " [SEP] " ++ abstract

/-! ## Go indexer: Phase 1 fetch-and-embed (`Indexer.Phase1FetchAndEmbed`) -/

/-- Worker-visible Phase 1 counters plus the cache contents. -/
structure Phase1State where
  cache : List CacheEntry := []
  processed : Nat := 0
  errors : Nat := 0
  deriving Repr, DecidableEq

/-- Cached author built from a streamed author (`MatchedProfile != nil` becomes the
profile flag). -/
def toCachedAuthor (a : GoAuthor) : CachedAuthor :=
  { authorId := a.authorId, authorPosition := a.authorPosition, authorName := a.authorName,
    authorEmail := a.authorEmail, authorAvailableNames := a.authorAvailableNames,
    authorAffiliation := a.authorAffiliation,
    hasMatchedProfile := a.matchedProfile.isSome }

/-- Cache entry built for one document and its embedding. -/
def toCacheEntry (d : GoDoc) (emb : List ℚ) : CacheEntry :=
  { mongoId := d.id, documentEID := d.documentEID, title := d.title, abstract := d.abstract,
    authors := d.authors.map toCachedAuthor, publicationYear := d.publicationYear,
    fieldAssociated := d.fieldAssociated, documentType := d.documentType,
    subjectArea := d.subjectArea, citationCount := d.citationCount,
    referenceCount := d.referenceCount, embedding := emb }

/-- Sequential sub-batch embedding of one outer batch: stops at the first failing
sub-batch call, otherwise concatenates the returned vectors in order. -/
def embedSubBatches (embed : List String → Except Unit (List (List ℚ))) :
    List (List String) → Except Unit (List (List ℚ))
  | [] => .ok []
  | c :: cs =>
    match embed c with
    | .error e => .error e
    | .ok es =>
      match embedSubBatches embed cs with
      | .error e => .error e
      | .ok rest => .ok (es ++ rest)

/-- One Phase 1 worker iteration on an outer batch: build the texts, embed the
sub-batches of size `embedBatchSize`; on any failure count the whole batch as errors and
add nothing; otherwise append the cache entries and count the batch as processed. -/
def phase1ProcessBatch (embedBatchSize : Nat)
    (embed : List String → Except Unit (List (List ℚ)))
    (st : Phase1State) (docs : List GoDoc) : Phase1State :=
  let texts := docs.map (fun d => buildEmbeddingText d.title d.abstract)
  match embedSubBatches embed (chunkList embedBatchSize texts) with
  | .error _ => { st with errors := st.errors + docs.length }
  | .ok allEmbeddings =>
    let entries := docs.zipWith toCacheEntry allEmbeddings
    { st with cache := st.cache ++ entries, processed := st.processed + docs.length }

/-- Phase 1 embedding stage over the stream of outer batches. -/
def phase1Run (embedBatchSize : Nat) (embed : List String → Except Unit (List (List ℚ)))
    (batches : List (List GoDoc)) (st : Phase1State) : Phase1State :=
  batches.foldl (phase1ProcessBatch embedBatchSize embed) st

/-! ## Go indexer: embedding client (`embedding.Client.GetEmbeddings`) -/

/-- Outcome of one `doRequest` attempt; a failure records whether the underlying error
is the context cancellation. -/
inductive AttemptOutcome where
  | ok (embs : List (List ℚ))
  | fail (cancelled : Bool)
  deriving Repr, DecidableEq

/-- Failure of the whole call: either the context error observed while acquiring the
semaphore, or exhaustion of all `MaxRetries` attempts wrapping the last error. -/
inductive EmbedFailure where
  | ctxCancelled
  | failedAfterRetries (lastCancelled : Bool)
  deriving Repr, DecidableEq

/-- Observable result of one `GetEmbeddings` call: the returned value, the number of
attempts performed, and the backoff sleeps (in seconds) taken between attempts. -/
structure EmbedCallResult where
  result : Except EmbedFailure (List (List ℚ))
  attemptsMade : Nat
  sleeps : List Nat
  deriving Repr

/-- Backoff before the next attempt: `min(2 ^ attempt, 10)` seconds. -/
def backoffSeconds (attempt : Nat) : Nat := min (2 ^ attempt) 10

/-- Retry loop of `GetEmbeddings`: attempts indexed from `i`, `remaining` attempts left,
sleeping between attempts but not after the last one, remembering the last error. -/
def embedRetryGo (attemptAt : Nat → AttemptOutcome) :
    (remaining i : Nat) → (lastCancelled : Bool) → EmbedCallResult
  | 0, _, lc => { result := .error (.failedAfterRetries lc), attemptsMade := 0, sleeps := [] }
  | r + 1, i, _ =>
    match attemptAt i with
    | .ok es => { result := .ok es, attemptsMade := 1, sleeps := [] }
    | .fail c =>
      match r with
      | 0 => { result := .error (.failedAfterRetries c), attemptsMade := 1, sleeps := [] }
      | r + 1 =>
        let rest := embedRetryGo attemptAt (r + 1) (i + 1) c
        { result := rest.result, attemptsMade := rest.attemptsMade + 1,
          sleeps := backoffSeconds i :: rest.sleeps }

/-- Translation of `Client.GetEmbeddings`: empty input short-circuits; a cancellation
observed while acquiring the concurrency semaphore returns the context error at once;
otherwise every attempt failure — the context cancellation included, since the loop
never re-checks the context — is retried with backoff up to `maxRetries` attempts. -/
def getEmbeddings (texts : List String) (cancelAtAcquire : Bool) (maxRetries : Nat)
    (attemptAt : Nat → AttemptOutcome) : EmbedCallResult :=
  if texts.length = 0 then { result := .ok [], attemptsMade := 0, sleeps := [] }
  else if cancelAtAcquire then
    { result := .error .ctxCancelled, attemptsMade := 0, sleeps := [] }
  else embedRetryGo attemptAt maxRetries 0 false

/-! ## Go indexer: Phase 2 index-and-update (`Indexer.Phase2IndexAndUpdate`) -/

/-- Nested author document sent to the engine (`opensearch.OSAuthor`). -/
structure OSAuthorDoc where
  authorId : String
  authorName : String
  authorNameVariants : List String
  authorPosition : Int
  authorAffiliation : String
  authorEmail : String
  hasMatchedProfile : Bool
  deriving Repr, DecidableEq

/-- Engine document sent by the Go indexer (`opensearch.OSDocument`). -/
structure OSDocumentGo where
  mongoId : String
  title : String
  abstract : String
  authors : List OSAuthorDoc
  authorNames : List String
  authorNameVariants : List String
  publicationYear : Int
  fieldAssociated : String
  documentType : String
  subjectArea : List String
  subjectAreaCount : Nat
  citationCount : Int
  referenceCount : Int
  embedding : List ℚ
  deriving Repr, DecidableEq

/-- Value of the leading decimal digits. -/
def digitsVal (cs : List Char) : Option Nat :=
  let ds := cs.takeWhile Char.isDigit
  if ds.isEmpty then none
  else some (ds.foldl (fun a c => a * 10 + (c.toNat - 48)) 0)

/-- Leading integer scanned by `fmt.Sscanf(s, "%d", ...)`: optional leading whitespace,
optional sign, at least one digit; `none` when the scan fails. -/
def parseLeadingInt (cs : List Char) : Option Int :=
  match cs.dropWhile Char.isWhitespace with
  | c :: rest =>
    if c = Char.ofNat 45 then (digitsVal rest).map (fun n => -(n : Int))
    else if c = Char.ofNat 43 then (digitsVal rest).map (fun n => (n : Int))
    else (digitsVal (c :: rest)).map (fun n => (n : Int))
  | [] => none

/-- Author position of the engine document: `position := 0`, then `Sscanf` only on a
nonempty string; a failed scan leaves 0. -/
def authorPositionOf (s : String) : Int :=
  if s = "" then 0 else (parseLeadingInt s.data).getD 0

/-- Nested author built in the Phase 2 loop body. -/
def buildOSAuthor (a : CachedAuthor) : OSAuthorDoc :=
  { authorId := a.authorId, authorName := a.authorName,
    authorNameVariants := a.authorAvailableNames,
    authorPosition := authorPositionOf a.authorPosition,
    authorAffiliation := a.authorAffiliation, authorEmail := a.authorEmail,
    hasMatchedProfile := a.hasMatchedProfile }

/-- The single author loop of Phase 2, which simultaneously fills the nested authors,
the flat `author_names` (indexed assignment per author) and the concatenated name
variants (appended only when the list is nonempty). -/
def buildAuthorLists (authors : List CachedAuthor) :
    List OSAuthorDoc × List String × List String :=
  authors.foldl
    (fun acc a =>
      (acc.1 ++ [buildOSAuthor a],
       acc.2.1 ++ [a.authorName],
       if 0 < a.authorAvailableNames.length then acc.2.2 ++ a.authorAvailableNames
       else acc.2.2))
    ([], [], [])

/-- Engine document built from a cache entry in the Phase 2 loop. -/
def buildOSDocument (entry : CacheEntry) : OSDocumentGo :=
  let lists := buildAuthorLists entry.authors
  { mongoId := entry.mongoId, title := entry.title, abstract := entry.abstract,
    authors := lists.1, authorNames := lists.2.1, authorNameVariants := lists.2.2,
    publicationYear := entry.publicationYear, fieldAssociated := entry.fieldAssociated,
    documentType := entry.documentType, subjectArea := entry.subjectArea,
    subjectAreaCount := entry.subjectArea.length, citationCount := entry.citationCount,
    referenceCount := entry.referenceCount, embedding := entry.embedding }

/-- Per-item outcome of a bulk response (`_id` and HTTP status). -/
structure BulkItem where
  id : String
  status : Int
  deriving Repr, DecidableEq

/-- Insertion into a Go map (`idMap[k] = v`): replace the binding if the key exists,
append it otherwise. -/
def goMapInsert (m : List (String × String)) (k v : String) : List (String × String) :=
  if m.any (fun p => p.1 == k) then
    m.map (fun p => if p.1 == k then (k, v) else p)
  else m ++ [(k, v)]

/-- The `mongo_id → opensearch _id` map built by `Client.BulkIndex` from the per-item
statuses: only items with a 2xx status contribute. -/
def bulkIndexIdMap (docs : List OSDocumentGo) (items : List BulkItem) :
    List (String × String) :=
  (docs.zip items).foldl
    (fun m di =>
      if 200 ≤ di.2.status ∧ di.2.status < 300 then goMapInsert m di.1.mongoId di.2.id
      else m)
    []

/-- Mongo back-sync update entry (`mongodb.IDUpdate`). -/
structure IDUpdate where
  mongoId : String
  openSearchId : String
  deriving Repr, DecidableEq

/-- Phase 2 counters and collected MongoDB updates. -/
structure Phase2State where
  indexed : Nat := 0
  errors : Nat := 0
  mongoUpdates : List IDUpdate := []
  deriving Repr, DecidableEq

/-- One Phase 2 slice: map the entries through the document builder, bulk-index; a
failed bulk request counts the whole slice as errors, otherwise the 2xx items count as
indexed, the rest as errors, and the id map feeds the MongoDB update list. -/
def phase2Step (bulk : List OSDocumentGo → Option (List BulkItem))
    (st : Phase2State) (batch : List CacheEntry) : Phase2State :=
  let osDocs := batch.map buildOSDocument
  match bulk osDocs with
  | none => { st with errors := st.errors + batch.length }
  | some items =>
    let idMap := bulkIndexIdMap osDocs items
    { indexed := st.indexed + idMap.length,
      errors := st.errors + (batch.length - idMap.length),
      mongoUpdates := st.mongoUpdates ++ batch.filterMap (fun e =>
        (jsMapGet idMap e.mongoId).map (fun osId =>
          { mongoId := e.mongoId, openSearchId := osId })) }

/-- Phase 2 indexing loop over the cache entries in slices of `bulkSize`. -/
def phase2Run (bulk : List OSDocumentGo → Option (List BulkItem))
    (bulkSize : Nat) (entries : List CacheEntry) : Phase2State :=
  (chunkList bulkSize entries).foldl (phase2Step bulk) {}

/-! ## Theorems -/

/-- Claim C1. The search operation never serves a previously cached response: the
hard-coded `bypassCache = true` skips the cache read on every path, so `cacheHit` is
`false` for every environment and request — even when the result cache already holds the
response under the key of the request. The claimed behavior (identical re-issued requests are
answered from the cache with `cache_hit=true`) therefore never occurs. -/
theorem search_never_reports_cache_hit (env : SearchEnv) (a : SearchArgs) :
    (search env a).1.cacheHit = false := by
  unfold search
  dsimp only
  split
  · next heq => simp at heq
  · split <;> rfl

/-- Claim C4. A zero-total BM25 pre-check short-circuits `search`: empty results, bare
facets, total 0, the fixed no-relevant-results message, `cacheHit = false`, and the
environment (the result cache included) is returned unchanged. -/
theorem bm25_precheck_zero_short_circuits (env : SearchEnv) (a : SearchArgs)
    (h : (env.engine (bm25PreCheckQuery a.query)).total = 0) :
    search env a =
      ({ results := [],
         relatedFaculty := none,
         facets := none,
         pagination := { page := a.page, perPage := a.perPage, total := 0, totalPages := 0 },
         message := some "No relevant results found for your query",
         cacheHit := false }, env) := by
  unfold search
  simp [h]

/-- Environment used to witness the short-circuit theorem: the engine reports no lexical
match at all. -/
def c4Env : SearchEnv :=
  { redis := [],
    embedQuery := fun _ => [1],
    engine := fun _ => { hits := [], total := 0, aggs := none },
    mongoFind := fun _ => [],
    relatedFaculty := fun _ => [],
    currentYear := 2026 }

/-- Witness for claim C4 at the request `zzzqqq` against an engine with no match. -/
theorem bm25_precheck_zero_short_circuits_witness :
    (c4Env.engine (bm25PreCheckQuery "zzzqqq")).total = 0 ∧
    search c4Env { query := "zzzqqq" } =
      ({ results := [],
         relatedFaculty := none,
         facets := none,
         pagination := { page := 1, perPage := 20, total := 0, totalPages := 0 },
         message := some "No relevant results found for your query",
         cacheHit := false }, c4Env) :=
  ⟨rfl, bm25_precheck_zero_short_circuits c4Env { query := "zzzqqq" } rfl⟩

/-- Claim C10. The ObjectId lookup runs only for 24-hex ids: otherwise, and whenever it
finds nothing, the `open_search_id` lookup decides; the route answers 404 exactly when
both lookups yield nothing. -/
theorem get_document_lookup_semantics (findById findByOpenSearchId : String → Option MongoDoc)
    (id : String) :
    (isHex24 id = false → getDocument findById findByOpenSearchId id = findByOpenSearchId id) ∧
    (isHex24 id = true → findById id = none →
      getDocument findById findByOpenSearchId id = findByOpenSearchId id) ∧
    ((getDocumentRoute findById findByOpenSearchId id).1 = 404 ↔
      (isHex24 id = true → findById id = none) ∧ findByOpenSearchId id = none) := by
  refine ⟨fun h => ?_, fun h h2 => ?_, ?_⟩
  · simp [getDocument, h]
  · simp [getDocument, h, h2]
  · unfold getDocumentRoute getDocument
    rcases hx : isHex24 id with _ | _ <;> simp
    · rcases hb : findByOpenSearchId id with _ | d <;> simp
    · rcases hf : findById id with _ | d <;> simp
      rcases hb : findByOpenSearchId id with _ | d <;> simp

/-- Witness for claim C10: a non-hex id with an empty store answers 404, and a 24-hex id
found by ObjectId answers 200. -/
theorem get_document_lookup_semantics_witness :
    (getDocumentRoute (fun _ => none) (fun _ => none) "not-an-objectid").1 = 404 ∧
    (getDocumentRoute (fun _ => some { mid := "aaaaaaaaaaaaaaaaaaaaaaaa" }) (fun _ => none)
      "aaaaaaaaaaaaaaaaaaaaaaaa").1 ≠ 404 :=
  ⟨(get_document_lookup_semantics (fun _ => none) (fun _ => none) "not-an-objectid").2.2.mpr
      ⟨fun _ => rfl, rfl⟩,
   fun h =>
     by
      have := ((get_document_lookup_semantics
        (fun _ => some { mid := "aaaaaaaaaaaaaaaaaaaaaaaa" }) (fun _ => none)
        "aaaaaaaaaaaaaaaaaaaaaaaa").2.2.mp h).1 (by decide)
      exact Option.noConfusion this⟩

/-- The Phase 2 author loop unfolded: appending to the three accumulators is mapping
and flattening over the author list. -/
theorem buildAuthorLists_go (auths : List CachedAuthor)
    (acc : List OSAuthorDoc × List String × List String) :
    auths.foldl
      (fun acc a =>
        (acc.1 ++ [buildOSAuthor a],
         acc.2.1 ++ [a.authorName],
         if 0 < a.authorAvailableNames.length then acc.2.2 ++ a.authorAvailableNames
         else acc.2.2))
      acc =
    (acc.1 ++ auths.map buildOSAuthor,
     acc.2.1 ++ auths.map (fun a => a.authorName),
     acc.2.2 ++ auths.flatMap (fun a => a.authorAvailableNames)) := by
  induction auths generalizing acc with
  | nil => simp
  | cons a rest ih =>
    rcases acc with ⟨l1, l2, l3⟩
    have hstep :
        (if 0 < a.authorAvailableNames.length then l3 ++ a.authorAvailableNames else l3) =
          l3 ++ a.authorAvailableNames := by
      cases a.authorAvailableNames with
      | nil => simp
      | cons x xs => simp
    simp only [List.foldl_cons, ih, List.map_cons, List.flatMap_cons, hstep]
    simp [List.append_assoc]

/-- Characterization of the Phase 2 author loop. -/
theorem buildAuthorLists_eq (auths : List CachedAuthor) :
    buildAuthorLists auths =
      (auths.map buildOSAuthor,
       auths.map (fun a => a.authorName),
       auths.flatMap (fun a => a.authorAvailableNames)) := by
  unfold buildAuthorLists
  simpa using buildAuthorLists_go auths ([], [], [])

/-- Claim C7. For every cache entry, the engine document built in Phase 2 has
`subject_area_count` equal to the length of its subject-area list, `author_names` equal
to the order-preserving projection of the author display names, and each nested
author position equal to the leading integer scanned from the cached position string,
with 0 on an empty string or a failed scan. -/
theorem phase2_engine_document_invariants (entry : CacheEntry) :
    (buildOSDocument entry).subjectAreaCount = (buildOSDocument entry).subjectArea.length ∧
    (buildOSDocument entry).authorNames = entry.authors.map (fun a => a.authorName) ∧
    (buildOSDocument entry).authors.map (fun a => a.authorPosition) =
      entry.authors.map (fun a =>
        if a.authorPosition = "" then 0 else (parseLeadingInt a.authorPosition.data).getD 0) := by
  refine ⟨?_, ?_, ?_⟩
  · simp [buildOSDocument]
  · simp [buildOSDocument, buildAuthorLists_eq]
  · simp only [buildOSDocument, buildAuthorLists_eq, List.map_map]
    refine List.map_congr_left (fun a _ => ?_)
    simp [buildOSAuthor, authorPositionOf, Function.comp]

/-- A sub-batch embedding failure anywhere in the chunk list fails the whole
sequential embedding of the outer batch. -/
theorem embedSubBatches_error_of_mem (embed : List String → Except Unit (List (List ℚ)))
    (cs : List (List String)) (h : ∃ c ∈ cs, embed c = .error ()) :
    embedSubBatches embed cs = .error () := by
  induction cs with
  | nil => simp at h
  | cons c rest ih =>
    rcases h with ⟨c0, hmem, herr⟩
    rcases List.mem_cons.mp hmem with rfl | hmem0
    · simp [embedSubBatches, herr]
    · unfold embedSubBatches
      rcases hc : embed c with _ | es
      · rfl
      · rw [ih ⟨c0, hmem0, herr⟩]

/-- Claim C5. If any embed sub-batch of the outer batch `b` fails, Phase 1 adds nothing
from `b` to the cache, counts the whole outer batch as errors, and continues with the
remaining batches unchanged. -/
theorem phase1_failed_subbatch_drops_outer_batch (embedBatchSize : Nat)
    (embed : List String → Except Unit (List (List ℚ)))
    (b : List GoDoc) (rest : List (List GoDoc)) (st : Phase1State)
    (h : ∃ c ∈ chunkList embedBatchSize
          (b.map (fun d => buildEmbeddingText d.title d.abstract)), embed c = .error ()) :
    phase1Run embedBatchSize embed (b :: rest) st =
      phase1Run embedBatchSize embed rest { st with errors := st.errors + b.length } := by
  unfold phase1Run
  rw [List.foldl_cons]
  congr 1
  simp only [phase1ProcessBatch]
  rw [embedSubBatches_error_of_mem embed _ h]

/-- Concrete failing embed oracle for the Phase 1 witness: only sub-batches of two texts
succeed. -/
def c5Embed (c : List String) : Except Unit (List (List ℚ)) :=
  if c.length = 2 then .ok [[1], [1]] else .error ()

/-- Concrete three-document outer batch for the Phase 1 witness. -/
def c5Batch : List GoDoc := [{ id := "A" }, { id := "B" }, { id := "C" }]

/-- Witness for claim C5: with sub-batch size 2, the second sub-batch of a
three-document batch fails, so the batch contributes only errors and the next batches
proceed from an unchanged cache. -/
theorem phase1_failed_subbatch_drops_outer_batch_witness :
    (∃ c ∈ chunkList 2 (c5Batch.map (fun d => buildEmbeddingText d.title d.abstract)),
      c5Embed c = .error ()) ∧
    phase1Run 2 c5Embed [c5Batch] { cache := [], processed := 0, errors := 0 } =
      phase1Run 2 c5Embed [] { cache := [], processed := 0, errors := 3 } := by
  have hmem : ∃ c ∈ chunkList 2 (c5Batch.map (fun d => buildEmbeddingText d.title d.abstract)),
      c5Embed c = .error () := ⟨[""], by decide, rfl⟩
  exact ⟨hmem, phase1_failed_subbatch_drops_outer_batch 2 c5Embed c5Batch [] _ hmem⟩

/-- Counterexample to claim C6 as stated: with a free semaphore slot and a context whose
cancellation surfaces as the error of every attempt, `GetEmbeddings` does not abort
immediately — it performs all three attempts, sleeps the 1 s and 2 s backoffs in
between, and returns the retries-exhausted error instead of the context error. -/
theorem get_embeddings_cancelled_retries_anyway :
    (getEmbeddings ["t"] false 3 (fun _ => .fail true)).attemptsMade = 3 ∧
    (getEmbeddings ["t"] false 3 (fun _ => .fail true)).sleeps = [1, 2] ∧
    (getEmbeddings ["t"] false 3 (fun _ => .fail true)).result =
      .error (.failedAfterRetries true) :=
  ⟨rfl, rfl, rfl⟩

/-- Attempt and sleep counts of the retry loop when every attempt fails. -/
theorem embedRetryGo_all_fail (f : Nat → AttemptOutcome)
    (hf : ∀ i, ∃ c, f i = .fail c) :
    ∀ (r i : Nat) (lc : Bool),
      (embedRetryGo f r i lc).attemptsMade = r ∧
      (embedRetryGo f r i lc).sleeps = (List.range (r - 1)).map (fun j => backoffSeconds (i + j)) := by
  intro r
  induction r with
  | zero => intro i lc; exact ⟨rfl, rfl⟩
  | succ r ih =>
    intro i lc
    obtain ⟨c, hc⟩ := hf i
    unfold embedRetryGo
    rw [hc]
    cases r with
    | zero => exact ⟨rfl, rfl⟩
    | succ r2 =>
      dsimp only
      constructor
      · rw [(ih (i + 1) c).1]
      · rw [(ih (i + 1) c).2]
        simp only [Nat.succ_sub_one, List.range_succ_eq_map, List.map_cons, List.map_map]
        refine congrArg₂ _ (by simp) ?_
        refine List.map_congr_left (fun j _ => ?_)
        simp only [Function.comp]
        congr 1
        omega

/-- Claim C6, amended. A cancellation observed while acquiring the concurrency
semaphore aborts at once with the context error, performing no attempt and no sleep;
but a cancellation surfacing as the failure of an attempt is retried like any other
error — all `MaxRetries` attempts run, with the backoff sleeps between them. -/
theorem get_embeddings_cancellation_semantics (texts : List String) (mr : Nat)
    (f : Nat → AttemptOutcome) (h1 : texts ≠ []) :
    getEmbeddings texts true mr f =
      { result := .error .ctxCancelled, attemptsMade := 0, sleeps := [] } ∧
    ((∀ i, ∃ c, f i = .fail c) →
      (getEmbeddings texts false mr f).attemptsMade = mr ∧
      (getEmbeddings texts false mr f).sleeps = (List.range (mr - 1)).map backoffSeconds) := by
  have hlen : ¬ texts.length = 0 := by
    cases texts with
    | nil => exact absurd rfl h1
    | cons t ts => simp
  constructor
  · unfold getEmbeddings
    simp [hlen]
  · intro hf
    unfold getEmbeddings
    simp only [hlen, if_false]
    have h := embedRetryGo_all_fail f hf mr 0 false
    exact ⟨h.1, by simpa using h.2⟩

/-- Witness for the amended claim C6 at two retries with a single text. -/
theorem get_embeddings_cancellation_semantics_witness :
    getEmbeddings ["t"] true 2 (fun _ => .fail false) =
      { result := .error .ctxCancelled, attemptsMade := 0, sleeps := [] } ∧
    (getEmbeddings ["t"] false 2 (fun _ => .fail false)).attemptsMade = 2 ∧
    (getEmbeddings ["t"] false 2 (fun _ => .fail false)).sleeps =
      (List.range 1).map backoffSeconds := by
  have h := get_embeddings_cancellation_semantics ["t"] 2 (fun _ => .fail false)
    (by simp)
  have h2 := h.2 (fun i => ⟨false, rfl⟩)
  exact ⟨h.1, h2.1, h2.2⟩

set_option maxRecDepth 1000000 in
/-- Counterexample to claim C3 as stated: `JSON.stringify` does not sort object keys, so
re-ordering the two filter entries changes the payload and the hashed key; and at the
service level an omitted `search_in` serializes as the string `default` while the
explicitly passed default list serializes as an array, which also changes the key. -/
theorem cache_key_order_and_searchin_sensitive :
    (getCacheKey "q"
        (some [("year_from", .fNum 2000), ("field_associated", .fStr "CS")])
        "relevance" 1 20 none ≠
      getCacheKey "q"
        (some [("field_associated", .fStr "CS"), ("year_from", .fNum 2000)])
        "relevance" 1 20 none) ∧
    (getCacheKey "q" none "relevance" 1 20 (some ["title", "abstract", "author"]) ≠
      getCacheKey "q" none "relevance" 1 20 none) := by
  constructor
  · decide
  · decide

/-- Claim C3, amended. The result-cache key is invariant under the presence of filter
entries whose value is undefined, null or the empty string: any two filters objects that
retain the same entries after dropping those produce the same key. The key is not
invariant under re-ordering of the filter keys, nor under passing the default
`search_in` list explicitly versus omitting it. -/
theorem cache_key_ignores_dropped_filter_entries (q sort : String) (page perPage : Int)
    (si : Option (List String)) (fs1 fs2 : Filters)
    (h : List.filter (fun kv => !(filterValDropped kv.2)) fs1 =
         List.filter (fun kv => !(filterValDropped kv.2)) fs2) :
    getCacheKey q (some fs1) sort page perPage si =
      getCacheKey q (some fs2) sort page perPage si := by
  unfold getCacheKey cacheKeyPayload
  simp only [Option.getD_some]
  rw [h]

/-- Witness for the amended claim C3: a null-valued and an empty-string-valued entry do
not change the key. -/
theorem cache_key_ignores_dropped_filter_entries_witness :
    (List.filter (fun kv => !(filterValDropped kv.2))
        [("year_from", FilterVal.fNull), ("field_associated", FilterVal.fStr "")] =
      List.filter (fun kv => !(filterValDropped kv.2)) ([] : Filters)) ∧
    getCacheKey "q"
        (some [("year_from", FilterVal.fNull), ("field_associated", FilterVal.fStr "")])
        "relevance" 1 20 none =
      getCacheKey "q" (some []) "relevance" 1 20 none :=
  ⟨by decide,
   cache_key_ignores_dropped_filter_entries "q" "relevance" 1 20 none _ _ (by decide)⟩

/-- A successful JS-map lookup over the hydration map returns the document stored under
its own id. -/
theorem jsMapGet_docMap_eq (docs : List MongoDoc) (k : String) (v : MongoDoc)
    (h : jsMapGet (docs.map (fun d => (d.mid, d))) k = some v) : k = v.mid := by
  unfold jsMapGet at h
  rcases hf : (docs.map (fun d => (d.mid, d))).reverse.find? (fun p => p.1 == k) with _ | p
  · rw [hf] at h
    exact Option.noConfusion h
  · rw [hf] at h
    have hp := List.find?_some hf
    have hmem := List.mem_reverse.mp (List.mem_of_find?_eq_some hf)
    obtain ⟨d, _, rfl⟩ := List.mem_map.mp hmem
    cases h
    exact (eq_of_beq hp).symm

/-- A key present among the pair keys makes the JS-map lookup succeed. -/
theorem jsMapGet_isSome_of_mem_keys (pairs : List (String × α)) (k : String)
    (h : ∃ p ∈ pairs, p.1 = k) : (jsMapGet pairs k).isSome = true := by
  unfold jsMapGet
  obtain ⟨p, hp, hk⟩ := h
  rcases hf : pairs.reverse.find? (fun p => p.1 == k) with _ | q
  · exfalso
    have := List.find?_eq_none.mp hf p (List.mem_reverse.mpr hp)
    simp [hk] at this
  · rw [hf]
    rfl

/-- Every hydrated document keeps an id that came from the engine hits. -/
theorem hydrate_mem_mid (mongoFind : List String → List MongoDoc) (hits : List OSHit)
    (r : MongoDoc) (hr : r ∈ hydrateFromMongoDB mongoFind hits) :
    r.mid ∈ hits.map (fun h => h.mongoId) := by
  unfold hydrateFromMongoDB at hr
  split at hr
  · simp at hr
  · obtain ⟨id, hid, hget⟩ := List.mem_filterMap.mp hr
    rw [← jsMapGet_docMap_eq _ id r hget]
    exact hid

/-- Hydration never yields more rows than engine hits. -/
theorem hydrate_length_le (mongoFind : List String → List MongoDoc) (hits : List OSHit) :
    (hydrateFromMongoDB mongoFind hits).length ≤ hits.length := by
  unfold hydrateFromMongoDB
  split
  · simp
  · calc ((hits.map (fun h => h.mongoId)).filterMap _).length
        ≤ (hits.map (fun h => h.mongoId)).length := List.length_filterMap_le _ _
      _ = hits.length := List.length_map _ _

/-- Claim C8. When the source document is found, `findSimilar` succeeds; the k-NN query
it runs uses `k = limit + 5` and a `must_not` on the source `mongo_id`; and provided the
engine honors the query size of `limit`, the returned `similar` array has at most
`limit` entries, each carrying a similarity score. -/
theorem find_similar_contract (env : SimilarEnv) (documentId : String) (lim : Int)
    (src : SourceDoc)
    (hsrc : env.sourceLookup documentId = some src)
    (hsize : ((env.engine (findSimilarQuery documentId lim src)).hits).length ≤ lim.toNat) :
    ∃ out, findSimilar env documentId lim = .ok out ∧
      (findSimilarQuery documentId lim src).body =
        .boolQ { must := [OSClause.knnEmbedding src.embedding (lim + 5).toNat],
                 mustNot := [OSFilter.termMongoId documentId] } ∧
      out.similar.length ≤ lim.toNat ∧
      ∀ e ∈ out.similar, e.similarityScore.isSome = true := by
  unfold findSimilar
  rw [hsrc]
  refine ⟨_, rfl, rfl, ?_, ?_⟩
  · calc (List.map _ (hydrateFromMongoDB env.mongoFind
          (env.engine (findSimilarQuery documentId lim src)).hits)).length
        = (hydrateFromMongoDB env.mongoFind
            (env.engine (findSimilarQuery documentId lim src)).hits).length :=
          List.length_map _ _
      _ ≤ ((env.engine (findSimilarQuery documentId lim src)).hits).length :=
          hydrate_length_le _ _
      _ ≤ lim.toNat := hsize
  · intro e he
    obtain ⟨r, hr, rfl⟩ := List.mem_map.mp he
    refine jsMapGet_isSome_of_mem_keys _ _ ?_
    have hm := hydrate_mem_mid env.mongoFind _ r hr
    obtain ⟨h0, hh0, hid⟩ := List.mem_map.mp hm
    exact ⟨(h0.mongoId, h0.score), List.mem_map.mpr ⟨h0, hh0, rfl⟩, hid⟩

/-- Environment used to witness the similar-documents contract. -/
def c8Env : SimilarEnv :=
  { sourceLookup := fun id =>
      if id = "m1" then some { embedding := [1], title := "t", subjectArea := ["SA"] } else none,
    engine := fun _ => { hits := [{ mongoId := "m2", score := 1/2 }], total := 1 },
    mongoFind := fun ids => ids.map (fun i => { mid := i }) }

/-- Witness for claim C8 at `limit = 5`: the engine returns one hit, so the similar list
has one scored entry. -/
theorem find_similar_contract_witness :
    c8Env.sourceLookup "m1" = some { embedding := [1], title := "t", subjectArea := ["SA"] } ∧
    ((c8Env.engine (findSimilarQuery "m1" 5
        { embedding := [1], title := "t", subjectArea := ["SA"] })).hits).length ≤ (5 : Int).toNat ∧
    ∃ out, findSimilar c8Env "m1" 5 = .ok out ∧
      (findSimilarQuery "m1" 5 { embedding := [1], title := "t", subjectArea := ["SA"] }).body =
        .boolQ { must := [OSClause.knnEmbedding [1] ((5 : Int) + 5).toNat],
                 mustNot := [OSFilter.termMongoId "m1"] } ∧
      out.similar.length ≤ (5 : Int).toNat ∧
      ∀ e ∈ out.similar, e.similarityScore.isSome = true := by
  refine ⟨rfl, by decide, ?_⟩
  obtain ⟨out, h1, h2, h3, h4⟩ := find_similar_contract c8Env "m1" 5
    { embedding := [1], title := "t", subjectArea := ["SA"] } rfl (by decide)
  exact ⟨out, h1, h2, h3, h4⟩

/-- Well-formedness of one bulk response: when the request succeeds, the engine answers
one item per submitted document. -/
def respLenOK (o : Option (List BulkItem)) (n : Nat) : Bool :=
  match o with
  | none => true
  | some items => items.length == n

/-- Number of 2xx items the engine reports for one slice (0 when the request fails). -/
def slice2xxCount (bulk : List OSDocumentGo → Option (List BulkItem))
    (batch : List CacheEntry) : Nat :=
  match bulk (batch.map buildOSDocument) with
  | none => 0
  | some items => (items.filter (fun it => decide (200 ≤ it.status ∧ it.status < 300))).length

/-- The engine document keeps the authoritative id of its cache entry. -/
theorem buildOSDocument_mongoId (e : CacheEntry) : (buildOSDocument e).mongoId = e.mongoId := rfl

/-- Inserting a fresh key into a Go map appends a binding. -/
theorem goMapInsert_fresh (m : List (String × String)) (k v : String)
    (h : ∀ p ∈ m, p.1 ≠ k) : goMapInsert m k v = m ++ [(k, v)] := by
  unfold goMapInsert
  have : m.any (fun p => p.1 == k) = false := by
    rw [List.any_eq_false]
    intro p hp
    simpa using h p hp
  rw [this]
  simp

/-- Length and key provenance of the id-map fold of `BulkIndex`: starting from a map
whose keys avoid the incoming document ids, pairwise-distinct document ids make every
2xx item insert a fresh binding. -/
theorem bulkFold_spec (pairs : List (OSDocumentGo × BulkItem)) :
    ∀ m : List (String × String),
      ((pairs.map (fun di => di.1.mongoId)).Nodup) →
      (∀ k ∈ m.map Prod.fst, ¬ k ∈ pairs.map (fun di => di.1.mongoId)) →
      ((pairs.foldl
          (fun m di =>
            if 200 ≤ di.2.status ∧ di.2.status < 300 then goMapInsert m di.1.mongoId di.2.id
            else m) m).length =
        m.length + (pairs.filter (fun di => decide (200 ≤ di.2.status ∧ di.2.status < 300))).length) ∧
      (∀ k ∈ (pairs.foldl
          (fun m di =>
            if 200 ≤ di.2.status ∧ di.2.status < 300 then goMapInsert m di.1.mongoId di.2.id
            else m) m).map Prod.fst,
        k ∈ m.map Prod.fst ∨ k ∈ pairs.map (fun di => di.1.mongoId)) := by
  induction pairs with
  | nil =>
    intro m _ _
    exact ⟨by simp, fun k hk => Or.inl hk⟩
  | cons di rest ih =>
    intro m hnd hfresh
    rw [List.map_cons] at hnd
    have hnd2 := List.nodup_cons.mp hnd
    by_cases h2 : 200 ≤ di.2.status ∧ di.2.status < 300
    · have hfreshk : ∀ p ∈ m, p.1 ≠ di.1.mongoId := by
        intro p hp heq
        exact hfresh p.1 (List.mem_map.mpr ⟨p, hp, rfl⟩)
          (by rw [heq]; simp)
      have hins := goMapInsert_fresh m di.1.mongoId di.2.id hfreshk
      have hkeys : (goMapInsert m di.1.mongoId di.2.id).map Prod.fst =
          m.map Prod.fst ++ [di.1.mongoId] := by rw [hins]; simp
      have hfresh2 : ∀ k ∈ (goMapInsert m di.1.mongoId di.2.id).map Prod.fst,
          ¬ k ∈ rest.map (fun di => di.1.mongoId) := by
        intro k hk
        rw [hkeys] at hk
        rcases List.mem_append.mp hk with hk1 | hk2
        · intro hmem
          exact hfresh k hk1 (by simp [hmem])
        · intro hmem
          rw [List.mem_singleton.mp hk2] at hmem
          exact hnd2.1 hmem
      obtain ⟨hlen, hprov⟩ := ih (goMapInsert m di.1.mongoId di.2.id) hnd2.2 hfresh2
      constructor
      · simp only [List.foldl_cons, if_pos h2, List.filter_cons]
        rw [hlen, hins]
        simp [h2]
        omega
      · intro k hk
        simp only [List.foldl_cons, if_pos h2] at hk
        rcases hprov k hk with hk1 | hk2
        · rw [hkeys] at hk1
          rcases List.mem_append.mp hk1 with h | h
          · exact Or.inl h
          · exact Or.inr (by rw [List.mem_singleton.mp h]; simp)
        · exact Or.inr (by simp [hk2])
    · have hfresh2 : ∀ k ∈ m.map Prod.fst, ¬ k ∈ rest.map (fun di => di.1.mongoId) := by
        intro k hk hmem
        exact hfresh k hk (by simp [hmem])
      obtain ⟨hlen, hprov⟩ := ih m hnd2.2 hfresh2
      constructor
      · simp only [List.foldl_cons, if_neg h2, List.filter_cons]
        rw [hlen]
        simp [h2]
      · intro k hk
        simp only [List.foldl_cons, if_neg h2] at hk
        rcases hprov k hk with hk1 | hk2
        · exact Or.inl hk1
        · exact Or.inr (by simp [hk2])

/-- Filtering a zip on the second component counts like filtering the second list, when
the lengths agree. -/
theorem zip_filter_snd_length {α β : Type} (p : β → Bool) :
    ∀ (l1 : List α) (l2 : List β), l1.length = l2.length →
      ((l1.zip l2).filter (fun di => p di.2)).length = (l2.filter p).length := by
  intro l1
  induction l1 with
  | nil =>
    intro l2 h
    have : l2 = [] := List.length_eq_zero.mp h.symm
    subst this
    rfl
  | cons a t ih =>
    intro l2 h
    cases l2 with
    | nil => simp at h
    | cons b t2 =>
      simp only [List.zip_cons_cons, List.filter_cons]
      cases hp : p b
      · simpa using ih t2 (by simpa using h)
      · simpa using ih t2 (by simpa using h)

/-- Counter bookkeeping of one Phase 2 slice: the slice contributes exactly its length
to `indexed + errors`, and its 2xx count to `indexed`. -/
theorem phase2Step_spec (bulk : List OSDocumentGo → Option (List BulkItem))
    (st : Phase2State) (batch : List CacheEntry)
    (hnd : ((batch.map (fun e => e.mongoId)).Nodup))
    (hlen : respLenOK (bulk (batch.map buildOSDocument)) batch.length = true) :
    ((phase2Step bulk st batch).indexed + (phase2Step bulk st batch).errors =
      st.indexed + st.errors + batch.length) ∧
    (phase2Step bulk st batch).indexed = st.indexed + slice2xxCount bulk batch := by
  simp only [phase2Step, slice2xxCount]
  rcases hb : bulk (batch.map buildOSDocument) with _ | items
  · dsimp only
    exact ⟨by omega, by omega⟩
  · have hlen2 : items.length = batch.length := by
      simp only [respLenOK, hb] at hlen
      exact eq_of_beq hlen
    have hdocids : (batch.map buildOSDocument).map (fun d => d.mongoId) =
        batch.map (fun e => e.mongoId) := by
      rw [List.map_map]
      rfl
    have hdlen : (batch.map buildOSDocument).length = batch.length := List.length_map _ _
    have hpairids : ((batch.map buildOSDocument).zip items).map (fun di => di.1.mongoId) =
        batch.map (fun e => e.mongoId) := by
      have h1 : ((batch.map buildOSDocument).zip items).map Prod.fst = batch.map buildOSDocument :=
        List.map_fst_zip _ _ (by omega)
      calc ((batch.map buildOSDocument).zip items).map (fun di => di.1.mongoId)
          = (((batch.map buildOSDocument).zip items).map Prod.fst).map (fun d => d.mongoId) := by
            rw [List.map_map]; rfl
        _ = batch.map (fun e => e.mongoId) := by rw [h1, hdocids]
    obtain ⟨hfold, _⟩ := bulkFold_spec ((batch.map buildOSDocument).zip items) []
      (by rw [hpairids]; exact hnd) (by simp)
    have hmap : (bulkIndexIdMap (batch.map buildOSDocument) items).length =
        (((batch.map buildOSDocument).zip items).filter
          (fun di => decide (200 ≤ di.2.status ∧ di.2.status < 300))).length := by
      unfold bulkIndexIdMap
      simpa using hfold
    have hcnt : (((batch.map buildOSDocument).zip items).filter
        (fun di => decide (200 ≤ di.2.status ∧ di.2.status < 300))).length =
        (items.filter (fun it => decide (200 ≤ it.status ∧ it.status < 300))).length :=
      zip_filter_snd_length (fun it => decide (200 ≤ it.status ∧ it.status < 300))
        (batch.map buildOSDocument) items (by omega)
    have hle : (items.filter (fun it => decide (200 ≤ it.status ∧ it.status < 300))).length ≤
        batch.length := by
      have h1 := List.length_filter_le (fun it => decide (200 ≤ it.status ∧ it.status < 300)) items
      omega
    dsimp only
    rw [hmap, hcnt]
    exact ⟨by omega, by omega⟩

/-- Counter bookkeeping of the Phase 2 slice loop, by induction on the chunking fuel. -/
theorem phase2Go_spec (bulk : List OSDocumentGo → Option (List BulkItem)) (n : Nat) :
    ∀ (fuel : Nat) (l : List CacheEntry) (st : Phase2State),
      l.length ≤ fuel →
      ((l.map (fun e => e.mongoId)).Nodup) →
      (∀ slice ∈ chunkGo n fuel l,
        respLenOK (bulk (slice.map buildOSDocument)) slice.length = true) →
      (((chunkGo n fuel l).foldl (phase2Step bulk) st).indexed +
          ((chunkGo n fuel l).foldl (phase2Step bulk) st).errors =
        st.indexed + st.errors + l.length) ∧
      ((chunkGo n fuel l).foldl (phase2Step bulk) st).indexed =
        st.indexed + ((chunkGo n fuel l).map (slice2xxCount bulk)).sum := by
  intro fuel
  induction fuel with
  | zero =>
    intro l st hf _ _
    have : l = [] := List.length_eq_zero.mp (Nat.le_zero.mp hf)
    subst this
    exact ⟨by simp [chunkGo], by simp [chunkGo]⟩
  | succ fuel ih =>
    intro l st hf hnd hres
    cases l with
    | nil => exact ⟨by simp [chunkGo], by simp [chunkGo]⟩
    | cons x xs =>
      have hchunk : chunkGo n (fuel + 1) (x :: xs) =
          (x :: List.take (n - 1) xs) :: chunkGo n fuel (List.drop (n - 1) xs) := rfl
      have hsplit : x :: xs = (x :: List.take (n - 1) xs) ++ List.drop (n - 1) xs := by
        simp
      have hndapp : (((x :: List.take (n - 1) xs).map (fun e => e.mongoId)) ++
          ((List.drop (n - 1) xs).map (fun e => e.mongoId))).Nodup := by
        rw [← List.map_append, ← hsplit]
        exact hnd
      have hnd1 := (List.nodup_append.mp hndapp).1
      have hnd2 := (List.nodup_append.mp hndapp).2.1
      have hrlen : (List.drop (n - 1) xs).length ≤ fuel := by
        have h1 : (x :: xs).length ≤ fuel + 1 := hf
        have h2 := List.length_drop (n - 1) xs
        simp at h1
        omega
      have hres1 : respLenOK (bulk ((x :: List.take (n - 1) xs).map buildOSDocument))
          (x :: List.take (n - 1) xs).length = true := by
        refine hres _ ?_
        rw [hchunk]
        exact List.mem_cons_self _ _
      have hres2 : ∀ slice ∈ chunkGo n fuel (List.drop (n - 1) xs),
          respLenOK (bulk (slice.map buildOSDocument)) slice.length = true := by
        intro s hs
        refine hres s ?_
        rw [hchunk]
        exact List.mem_cons_of_mem _ hs
      obtain ⟨hs1, hs2⟩ := phase2Step_spec bulk st (x :: List.take (n - 1) xs) hnd1 hres1
      obtain ⟨hg1, hg2⟩ := ih (List.drop (n - 1) xs)
        (phase2Step bulk st (x :: List.take (n - 1) xs)) hrlen hnd2 hres2
      have hlensum : (x :: List.take (n - 1) xs).length + (List.drop (n - 1) xs).length =
          (x :: xs).length := by
        conv_rhs => rw [hsplit]
        exact (List.length_append _ _).symm
      rw [hchunk]
      simp only [List.foldl_cons, List.map_cons, List.sum_cons]
      exact ⟨by omega, by omega⟩

/-- Claim C9. With pairwise-distinct authoritative ids and well-formed bulk responses,
the Phase 2 counters partition the cache: `indexed + errors` equals the number of cache
entries, and `indexed` is exactly the total number of 2xx bulk items. -/
theorem phase2_counters_partition (bulk : List OSDocumentGo → Option (List BulkItem))
    (bulkSize : Nat) (entries : List CacheEntry)
    (hresp : ∀ slice ∈ chunkList bulkSize entries,
      respLenOK (bulk (slice.map buildOSDocument)) slice.length = true)
    (hnd : (entries.map (fun e => e.mongoId)).Nodup) :
    ((phase2Run bulk bulkSize entries).indexed + (phase2Run bulk bulkSize entries).errors =
      entries.length) ∧
    (phase2Run bulk bulkSize entries).indexed =
      ((chunkList bulkSize entries).map (slice2xxCount bulk)).sum := by
  have h := phase2Go_spec bulk bulkSize entries.length entries {} (le_refl _) hnd hresp
  unfold phase2Run chunkList
  exact ⟨by simpa using h.1, by simpa using h.2⟩

/-- Cache contents used to witness the Phase 2 counter partition. -/
def c9Entries : List CacheEntry := [{ mongoId := "A" }, { mongoId := "B" }, { mongoId := "C" }]

/-- Bulk oracle used in the witness: every item answered, `C` rejected with a 400. -/
def c9Bulk (docs : List OSDocumentGo) : Option (List BulkItem) :=
  some (docs.map (fun d =>
    { id := "os-" ++ d.mongoId, status := if d.mongoId = "C" then 400 else 201 }))

/-- Witness for claim C9: three distinct entries in slices of two, one non-2xx item,
so `indexed + errors = 3`. -/
theorem phase2_counters_partition_witness :
    (∀ slice ∈ chunkList 2 c9Entries,
      respLenOK (c9Bulk (slice.map buildOSDocument)) slice.length = true) ∧
    (c9Entries.map (fun e => e.mongoId)).Nodup ∧
    (phase2Run c9Bulk 2 c9Entries).indexed + (phase2Run c9Bulk 2 c9Entries).errors = 3 :=
  ⟨by decide, by decide,
   (phase2_counters_partition c9Bulk 2 c9Entries (by decide) (by decide)).1⟩

/-- Every normalized-mode score is strictly below the overriding dynamic `min_score` of
1.0: the script output is a convex combination of `bm25 / (1 + bm25) < 1` and
`(cos + 1) / 2 ≤ 1` with weights 0.4 and 0.6, so the override empties the result set. -/
theorem engineScore_normalized_lt_one (inner : BoolQ) (qv : List ℚ) (d : EngineDoc)
    (hs : 0 ≤ d.bm25) (hc : d.cos ≤ 1) :
    engineScore (.scriptScore inner qv (2/5) (3/5)) d < 1 := by
  unfold engineScore
  have h1 : d.bm25 / (1 + d.bm25) < 1 := by
    rw [div_lt_one (by linarith)]
    linarith
  have h2 : (d.cos + 1) / 2 ≤ 1 := by linarith
  linarith

/-- Candidate documents of the normalized-search scenario: raw features giving the
normalized scores 0.72 and 0.41. -/
def c2Index : List EngineDoc :=
  [{ mongoId := "doc1", bm25 := 4, cos := 1/3 },
   { mongoId := "doc2", bm25 := 1/4, cos := 1/10 }]

/-- Environment of the normalized-search scenario. -/
def c2Env : SearchEnv :=
  { redis := [],
    embedQuery := fun _ => [1],
    engine := osEngineRun c2Index,
    mongoFind := fun ids => ids.map (fun i => { mid := i }),
    relatedFaculty := fun _ => [],
    currentYear := 2026 }

/-- The normalized-search request of the scenario. -/
def c2Args : SearchArgs := { query := "carbon nanotubes", sort := "normalized" }

/-- Claim C2 evaluated on the code: the normalized builder itself carries
`min_score = 0.3`, but the query the orchestrator actually executes carries the
overridden `min_score = 1.0`; under it the engine drops the hit whose normalized score
is 0.41 (and the 0.72 one as well), so the search returns no results at all instead of
returning the 0.41 hit. -/
theorem normalized_min_score_override_drops_hits :
    (buildNormalizedHybridQuery "carbon nanotubes" [1] none 1 20 none).minScore =
      some (3/10) ∧
    (searchExecutedQuery c2Env c2Args).minScore = some 1 ∧
    engineScore (searchExecutedQuery c2Env c2Args).body
      { mongoId := "doc1", bm25 := 4, cos := 1/3 } = 72/100 ∧
    engineScore (searchExecutedQuery c2Env c2Args).body
      { mongoId := "doc2", bm25 := 1/4, cos := 1/10 } = 41/100 ∧
    (search c2Env c2Args).1.results = [] ∧
    (search c2Env c2Args).1.pagination.total = 0 := by
  have hquery : searchExecutedQuery c2Env c2Args =
      { buildNormalizedHybridQuery "carbon nanotubes" [1] none 1 20 none with
          minScore := some 1 } := rfl
  have hs1 : engineScore (searchExecutedQuery c2Env c2Args).body
      { mongoId := "doc1", bm25 := 4, cos := 1/3 } = 72/100 := by
    rw [hquery]
    norm_num [buildNormalizedHybridQuery, engineScore]
  have hs2 : engineScore (searchExecutedQuery c2Env c2Args).body
      { mongoId := "doc2", bm25 := 1/4, cos := 1/10 } = 41/100 := by
    rw [hquery]
    norm_num [buildNormalizedHybridQuery, engineScore]
  have hrun : c2Env.engine (searchExecutedQuery c2Env c2Args) =
      { hits := [], total := 0, aggs := some {} } := by
    show osEngineRun c2Index (searchExecutedQuery c2Env c2Args) = _
    rw [hquery]
    norm_num [osEngineRun, buildNormalizedHybridQuery, c2Index, engineScore]
  have hbm : c2Env.engine (bm25PreCheckQuery c2Args.query) =
      { hits := [], total := 2, aggs := none } := rfl
  refine ⟨rfl, rfl, hs1, hs2, ?_, ?_⟩
  · unfold search
    dsimp only
    rw [hbm, hrun]
    rfl
  · unfold search
    dsimp only
    rw [hbm, hrun]
    rfl

end SEOBackend
